import Mathlib

/-!
Shallow embedding of the scheduling-and-dispatch engine of X-Post-Planner.

The definitions below translate `src/server.js` (the SQLite-backed server:
`postTweet`, `checkRateLimits`, `updateRateLimitUsage`, the per-minute
`runScheduler` tick and the PUT /api/tweets/:id edit handler) and the
backoff helper `calculateBackoffDelay` of `src/app.js`.

Modelling conventions:

* instants are Nat milliseconds since the epoch; `parseScheduledDate`
  results are carried as already-parsed instants (every stored `runAt`
  round-trips through `toISOString`, so the parse never fails);
* the canonical rate buckets (the `YYYY-MM-DD`, `YYYY-MM-DD-HH` and
  `YYYY-MM-DD-HH-MM` strings of the source) are modelled as the instant
  truncated to the period granularity: only their being a pure function of
  `now` with one key per window matters to the verified properties;
* `generateContentHash` (sha256 hex digest) is modelled as an injective
  fingerprint of the payload text, i.e. the identity function;
* the sqlite `rate_limits` table is a total function
  `(period, bucket) -> used` defaulting to 0 for absent rows, which is the
  COALESCE(used, 0) semantics of `updateRateLimitUsage` and the
  row-or-zero semantics of `getRateLimitUsage`;
* the external publish call (`twitterClient.v2.tweet`) is an oracle of
  type `DispatchOutcome`: either a response carrying `data.id` or a thrown
  error message; a missing twitter client is folded into the error branch,
  which is how `runScheduler` treats it (a non-retryable failure result);
* `RateLimiterMemory` is modelled by `points` (capacity fixed at process
  start), `consumed` and `msBeforeNext`; `consume` succeeds iff a point is
  left.  The `Promise.all` of the three consumes lets every limiter that
  has capacity consume and rejects iff any lacks capacity, with the first
  rejecting limiter supplying the `msBeforeNext` hint.  Duration-based
  refill of the in-memory limiters is not modelled: every theorem is about
  explicitly supplied instants;
* a JS statement that throws out of the per-item loop body (the RangeError
  raised by `new Date(NaN).toISOString()`) is modelled by the `crash`
  constructor of `StepResult`: the tick's surrounding try/catch swallows
  it, so the tick ends with the state reached so far and the remaining due
  items are not processed;
* the `tweets` table (CREATE TABLE, server.js lines 52-64) has NO
  `nextRetryAt` column.  When the scheduler's `updates` object contains
  `nextRetryAt` (the rate-denial-with-hint branch and the
  retryable-failure deferral branch), `updateTweet` issues
  `UPDATE tweets SET attempts = ?, nextRetryAt = ?, updatedAt = ? ...`,
  which SQLite rejects wholesale (no such column); `updateTweet` resolves
  `false` and nothing is persisted.  Those two branches therefore leave
  the stored rows unchanged in the model.
-/

namespace XPostPlanner

/-- Status column of the `tweets` table: `pending`, `posted` or `failed`. -/
inductive Status where
  | pending
  | posted
  | failed
  deriving Repr, DecidableEq

/-- One row of the `tweets` table of `src/server.js` (CREATE TABLE at
lines 52-64: columns id, text, runAt, status, attempts, postedAt, tweetId,
error, failedAt; createdAt/updatedAt bookkeeping is omitted as no claim
mentions it).  `nextRetryAt` is NOT a column of that table: the scheduler
puts it into its `updates` object, but the resulting UPDATE names a
nonexistent column and fails wholesale (see `processDueTweet`), so on a
row coming from the store the field is always `none`; it is carried here
so the value the scheduler computes for it can be stated. -/
structure Tweet where
  id : String
  text : String
  runAt : Nat
  status : Status
  attempts : Nat
  nextRetryAt : Option Nat := none
  postedAt : Option Nat := none
  tweetId : Option String := none
  error : Option String := none
  failedAt : Option Nat := none
  deriving Repr, DecidableEq

/-- The three rate periods of the `rate_limits` table. -/
inductive Period where
  | daily
  | hourly
  | minute
  deriving Repr, DecidableEq

def TWEET_DAILY_LIMIT : Nat := 150

def TWEET_HOURLY_LIMIT : Nat := 25

def TWEET_MINUTE_LIMIT : Nat := 3

def limitOf : Period → Nat
  | .daily => TWEET_DAILY_LIMIT
  | .hourly => TWEET_HOURLY_LIMIT
  | .minute => TWEET_MINUTE_LIMIT

/-- Canonical day bucket of an instant (the source's `YYYY-MM-DD` key,
modelled as truncation to the day window). -/
def dayBucket (now : Nat) : Nat := now / 86400000

/-- Canonical hour bucket of an instant (the source's `YYYY-MM-DD-HH`). -/
def hourBucket (now : Nat) : Nat := now / 3600000

/-- Canonical minute bucket of an instant (`YYYY-MM-DD-HH-MM`). -/
def minuteBucket (now : Nat) : Nat := now / 60000

def bucketOf : Period → Nat → Nat
  | .daily => dayBucket
  | .hourly => hourBucket
  | .minute => minuteBucket

/-- One in-memory `RateLimiterMemory` instance: capacity (`points`, set
once at startup to limit minus durable usage), consumed points, and the
`msBeforeNext` reset hint it reports on rejection. -/
structure MemLimiter where
  points : Nat
  consumed : Nat
  msBeforeNext : Nat
  deriving Repr, DecidableEq

/-- `limiter.consume('user', 1)` resolves iff a point is left. -/
def MemLimiter.canConsume (l : MemLimiter) : Bool := l.consumed < l.points

/-- Effect of `limiter.consume('user', 1)`: consumes a point when one is
left, otherwise rejects leaving the limiter unchanged. -/
def MemLimiter.consume (l : MemLimiter) : MemLimiter :=
  if l.consumed < l.points then { l with consumed := l.consumed + 1 } else l

/-- Whole-process state of `src/server.js`: the `tweets` table, the
`rate_limits` table, the in-memory `postedHashes` idempotency set and the
three in-memory limiters. -/
structure ServerState where
  tweets : List Tweet
  rateTable : Period → Nat → Nat
  postedHashes : List String
  dailyLimiter : MemLimiter
  hourlyLimiter : MemLimiter
  minuteLimiter : MemLimiter

/-- `generateContentHash`: sha256 hex digest of the exact payload text,
modelled as an injective fingerprint (the identity on the text). -/
def generateContentHash (text : String) : String := text

/-- `updateRateLimitUsage(period, date)`: INSERT OR REPLACE with
COALESCE((SELECT used ...), 0) + 1 on the unique `(period, date)` row. -/
def updateRateLimitUsage (rt : Period → Nat → Nat) (p : Period) (b : Nat) :
    Period → Nat → Nat :=
  fun q k => if q = p ∧ k = b then rt q k + 1 else rt q k

/-- Result object returned by `postTweet` of `src/server.js`.  Absent JS
fields are `none` / `false`. -/
structure PostResult where
  success : Bool := false
  duplicate : Bool := false
  rateLimit : Bool := false
  dryRun : Bool := false
  resetTime : Option Nat := none
  data : Option String := none
  error : Option String := none
  deriving Repr, DecidableEq

/-- Oracle for the external publish call: the response carries `data.id`,
or the call throws with a message (a missing twitter client is folded into
the thrown branch, matching how the scheduler consumes the result). -/
inductive DispatchOutcome where
  | ok (id : String)
  | err (msg : String)
  deriving Repr, DecidableEq

def addHash (s : ServerState) (h : String) : ServerState :=
  { s with postedHashes := h :: s.postedHashes }

/-- `msBeforeNext` of the first limiter whose `consume` rejects, which is
the rejection `Promise.all` propagates (array order daily, hourly,
minute). -/
def firstRejectHint (s : ServerState) : Nat :=
  if s.dailyLimiter.canConsume = false then s.dailyLimiter.msBeforeNext
  else if s.hourlyLimiter.canConsume = false then s.hourlyLimiter.msBeforeNext
  else s.minuteLimiter.msBeforeNext

/-- Effect of `Promise.all([dailyLimiter.consume, hourlyLimiter.consume,
minuteLimiter.consume])`: every limiter that has capacity consumes, even
when another one rejects. -/
def consumeAll (s : ServerState) : ServerState :=
  { s with
      dailyLimiter := s.dailyLimiter.consume
      hourlyLimiter := s.hourlyLimiter.consume
      minuteLimiter := s.minuteLimiter.consume }

/-- The three `updateRateLimitUsage` calls of `postTweet`: increment the
durable counters of the current day, hour and minute buckets. -/
def bumpAllBuckets (now : Nat) (s : ServerState) : ServerState :=
  { s with
      rateTable :=
        updateRateLimitUsage
          (updateRateLimitUsage
            (updateRateLimitUsage s.rateTable .daily (dayBucket now))
            .hourly (hourBucket now))
          .minute (minuteBucket now) }

/-- `postTweet(tweetData)` of `src/server.js` (lines 588-695): idempotency
check against `postedHashes`; durable rate check of the three current
buckets (day, hour, minute order, each compared with >= limit); memory
limiter consume (rejection returns a rateLimit result carrying the
`msBeforeNext` hint as `resetTime`; note the durable-check denials carry
NO `resetTime`); durable counter increment; then DRY_RUN simulation or the
external call.  The content hash is added to `postedHashes` only on a
successful (or simulated) dispatch. -/
def postTweet (dryRun : Bool) (now : Nat) (dispatch : DispatchOutcome)
    (s : ServerState) (t : Tweet) : PostResult × ServerState :=
  let contentHash := generateContentHash t.text
  if s.postedHashes.contains contentHash then
    ({ duplicate := true }, s)
  else
    let dailyUsed := s.rateTable .daily (dayBucket now)
    let hourlyUsed := s.rateTable .hourly (hourBucket now)
    let minuteUsed := s.rateTable .minute (minuteBucket now)
    if TWEET_DAILY_LIMIT ≤ dailyUsed then
      ({ rateLimit := true }, s)
    else if TWEET_HOURLY_LIMIT ≤ hourlyUsed then
      ({ rateLimit := true }, s)
    else if TWEET_MINUTE_LIMIT ≤ minuteUsed then
      ({ rateLimit := true }, s)
    else
      let canAll := s.dailyLimiter.canConsume && s.hourlyLimiter.canConsume
          && s.minuteLimiter.canConsume
      let s1 := consumeAll s
      if canAll = false then
        ({ rateLimit := true, resetTime := some (firstRejectHint s) }, s1)
      else
        let s2 := bumpAllBuckets now s1
        if dryRun then
          ({ success := true, dryRun := true }, addHash s2 contentHash)
        else
          match dispatch with
          | .ok id => ({ success := true, data := some id }, addHash s2 contentHash)
          | .err msg => ({ error := some msg }, s2)

/-- `RATE_LIMIT_BACKOFF_BASE` of `src/app.js`. -/
def RATE_LIMIT_BACKOFF_BASE : Nat := 1000

/-- `calculateBackoffDelay(attempt, baseDelay)` of `src/app.js` (line
117-119): `Math.min(baseDelay * Math.pow(2, attempt), 300000)`. -/
def calculateBackoffDelay (attempt : Nat) (baseDelay : Nat) : Nat :=
  min (baseDelay * 2 ^ attempt) 300000

/-- The delay chosen by the retry branch of `postTweet` in `src/app.js`
(lines 177-191): default base (1000 ms) for a 429 rate-limit signal, a
5000 ms base for retryable server errors. -/
def retryDelay (isRateLimit : Bool) (attempt : Nat) : Nat :=
  if isRateLimit then calculateBackoffDelay attempt RATE_LIMIT_BACKOFF_BASE
  else calculateBackoffDelay attempt 5000

/-- PUT /api/tweets/:id of `src/server.js` (lines 828-863) applied to the
stored row: a supplied `text` is trimmed into the row; a supplied-and-
parseable `dateTime` (modelled as the already-parsed instant) sets `runAt`
and resets `status` to pending and `attempts` to 0.  No other column is
touched (`updateTweet` writes only the supplied fields). -/
def putTweetUpdate (text : Option String) (dateTime : Option Nat)
    (t : Tweet) : Tweet :=
  let t1 := match text with
    | some s => { t with text := s.trim }
    | none => t
  match dateTime with
  | some inst => { t1 with runAt := inst, status := Status.pending, attempts := 0 }
  | none => t1

/-- One `{remaining, used, limit, resetTime}` entry of the rate snapshot. -/
structure LimitInfo where
  remaining : Nat
  used : Nat
  limit : Nat
  resetTime : Nat
  deriving Repr, DecidableEq

/-- The full `checkRateLimits()` snapshot. -/
structure RateLimitsView where
  daily : LimitInfo
  hourly : LimitInfo
  minute : LimitInfo
  deriving Repr, DecidableEq

/-- `checkRateLimits()` of `src/server.js` (lines 531-585): per period it
adds the durable usage of the current bucket and the in-memory limiter's
`consumedPoints`, then reports `used` as that sum and `remaining` as
`Math.max(0, LIMIT - used)` (truncated subtraction on Nat). -/
def checkRateLimits (s : ServerState) (now : Nat) : RateLimitsView :=
  let totalDailyUsed := s.rateTable .daily (dayBucket now) + s.dailyLimiter.consumed
  let totalHourlyUsed := s.rateTable .hourly (hourBucket now) + s.hourlyLimiter.consumed
  let totalMinuteUsed := s.rateTable .minute (minuteBucket now) + s.minuteLimiter.consumed
  { daily :=
      { remaining := TWEET_DAILY_LIMIT - totalDailyUsed
        used := totalDailyUsed
        limit := TWEET_DAILY_LIMIT
        resetTime := s.dailyLimiter.msBeforeNext }
    hourly :=
      { remaining := TWEET_HOURLY_LIMIT - totalHourlyUsed
        used := totalHourlyUsed
        limit := TWEET_HOURLY_LIMIT
        resetTime := s.hourlyLimiter.msBeforeNext }
    minute :=
      { remaining := TWEET_MINUTE_LIMIT - totalMinuteUsed
        used := totalMinuteUsed
        limit := TWEET_MINUTE_LIMIT
        resetTime := s.minuteLimiter.msBeforeNext } }

/-- Placeholder outcome drawn when the oracle list is exhausted. -/
def noOutcomeMsg : String := "no oracle outcome supplied"

/-- Result of the `for (const tweet of dueTweets)` loop body of
`runScheduler`: either the body completed (with the new state, and the
processed item's content when the step assigned a non-null `tweetId`), or
the body threw (the RangeError of `new Date(NaN).toISOString()` raised
when a rate denial carries no `resetTime`), which the tick's surrounding
try/catch absorbs, abandoning the rest of the due list. -/
inductive StepResult where
  | ok (s : ServerState) (dispatched : Option String)
  | crash (s : ServerState)

def StepResult.state : StepResult → ServerState
  | .ok s _ => s
  | .crash s => s

def StepResult.disp : StepResult → Option String
  | .ok _ d => d
  | .crash _ => none

/-- `updateTweet(id, updates)`: UPDATE of every `tweets` row whose id
matches (id is the PRIMARY KEY, so at most one row in practice).  The
update function sets columns to values computed from the loaded copy of
the item, exactly like the SQL SET clause. -/
def applyUpdate (s : ServerState) (id : String) (f : Tweet → Tweet) :
    ServerState :=
  { s with tweets := s.tweets.map fun u => if u.id = id then f u else u }

/-- One iteration of the per-item loop of `runScheduler` in
`src/server.js` (lines 913-982).  `updates` always starts as
`attempts := tweet.attempts + 1`; a success marks the row posted (with
`tweetId := result.data` when not DRY_RUN); a duplicate marks it posted
without touching `tweetId`.  A rate-limit result with a `resetTime` hint
builds `updates = (attempts, nextRetryAt = now + resetTime)`, but the
`tweets` table has no `nextRetryAt` column, so the UPDATE fails wholesale
and NOTHING is persisted (the stored rows are unchanged); when `resetTime`
is absent the JS computes `new Date(NaN).toISOString()` instead, which
throws a RangeError before `updateTweet` runs (the `crash` branch).  Any
other failure marks the row failed (when the pre-increment attempts have
reached 4; those columns all exist, so this UPDATE persists), or builds
`updates = (attempts, nextRetryAt = now + 5 min)` — which again names the
nonexistent column, so the deferral UPDATE also persists nothing. -/
def processDueTweet (dryRun : Bool) (now : Nat) (dispatch : DispatchOutcome)
    (s : ServerState) (tweet : Tweet) : StepResult :=
  let pr := postTweet dryRun now dispatch s tweet
  let result := pr.1
  let s1 := pr.2
  if result.success then
    if result.dryRun then
      .ok (applyUpdate s1 tweet.id fun u =>
        { u with attempts := tweet.attempts + 1, status := Status.posted,
                 postedAt := some now }) none
    else
      .ok (applyUpdate s1 tweet.id fun u =>
        { u with attempts := tweet.attempts + 1, status := Status.posted,
                 postedAt := some now, tweetId := result.data })
        (result.data.map fun _ => tweet.text)
  else if result.duplicate then
    .ok (applyUpdate s1 tweet.id fun u =>
      { u with attempts := tweet.attempts + 1, status := Status.posted,
               postedAt := some now }) none
  else if result.rateLimit then
    match result.resetTime with
    | some _ => .ok s1 none
    | none => .crash s1
  else if 4 ≤ tweet.attempts then
    .ok (applyUpdate s1 tweet.id fun u =>
      { u with attempts := tweet.attempts + 1, status := Status.failed,
               error := result.error, failedAt := some now }) none
  else
    .ok s1 none

/-- The due-subset predicate of `runScheduler` (src/server.js lines
886-890): a stored row is due iff its status is pending and its parsed
`runAt` is not after `now`.  No other column is consulted. -/
def isDueTweet (now : Nat) (t : Tweet) : Bool :=
  decide (t.status = Status.pending) && decide (t.runAt ≤ now)

/-- Sequential processing of a list of due items, threading the state and
collecting, for each step that assigned a non-null `tweetId`, the content
text it dispatched.  A `crash` ends the tick with the state reached so
far (the outer try/catch of `runScheduler`). -/
def processDue (dryRun : Bool) (now : Nat) :
    List Tweet → List DispatchOutcome → ServerState →
      ServerState × List String
  | [], _, s => (s, [])
  | t :: ts, outs, s =>
    match processDueTweet dryRun now (outs.headD (DispatchOutcome.err noOutcomeMsg)) s t with
    | .ok s1 d =>
        let rest := processDue dryRun now ts outs.tail s1
        (rest.1, d.toList ++ rest.2)
    | .crash s1 => (s1, [])

/-- One tick of `runScheduler` (src/server.js lines 881-1000): load the
table, select the due subset, process it sequentially. -/
def runSchedulerTick (dryRun : Bool) (now : Nat)
    (outs : List DispatchOutcome) (s : ServerState) :
    ServerState × List String :=
  processDue dryRun now (s.tweets.filter (isDueTweet now)) outs s

/-- A whole process lifetime of scheduler activity: a sequence of ticks,
each with its wall-clock instant and its dispatch oracle. -/
def runTrace (dryRun : Bool) :
    List (Nat × List DispatchOutcome) → ServerState →
      ServerState × List String
  | [], s => (s, [])
  | (now, outs) :: rest, s =>
    let step := runSchedulerTick dryRun now outs s
    let tail := runTrace dryRun rest step.1
    (tail.1, step.2 ++ tail.2)

/-! ### Basic lemmas about `postTweet` -/

lemma postTweet_tweets (dryRun : Bool) (now : Nat) (out : DispatchOutcome)
    (s : ServerState) (t : Tweet) :
    (postTweet dryRun now out s t).2.tweets = s.tweets := by
  simp only [postTweet]
  repeat' split
  all_goals simp [addHash, bumpAllBuckets, consumeAll]

lemma contains_eq_mem_str (l : List String) (a : String) :
    l.contains a = true ↔ a ∈ l := by
  simp

lemma postTweet_hash_mono (dryRun : Bool) (now : Nat) (out : DispatchOutcome)
    (s : ServerState) (t : Tweet) (x : String)
    (hx : x ∈ s.postedHashes) :
    x ∈ (postTweet dryRun now out s t).2.postedHashes := by
  simp only [postTweet]
  repeat' split
  all_goals simp [addHash, bumpAllBuckets, consumeAll, hx]

lemma postTweet_success_hash (dryRun : Bool) (now : Nat)
    (out : DispatchOutcome) (s : ServerState) (t : Tweet)
    (h : (postTweet dryRun now out s t).1.success = true) :
    t.text ∉ s.postedHashes ∧
      (postTweet dryRun now out s t).2.postedHashes =
        t.text :: s.postedHashes := by
  revert h
  simp only [postTweet]
  repeat' split
  all_goals
    simp_all [addHash, bumpAllBuckets, consumeAll, generateContentHash]

lemma postTweet_rateLimit_flags (dryRun : Bool) (now : Nat)
    (out : DispatchOutcome) (s : ServerState) (t : Tweet)
    (h : (postTweet dryRun now out s t).1.rateLimit = true) :
    (postTweet dryRun now out s t).1.success = false ∧
      (postTweet dryRun now out s t).1.duplicate = false := by
  revert h
  simp only [postTweet]
  repeat' split
  all_goals simp

/-- The durable-counter safety property of the `rate_limits` table: no
`(period, bucket)` row ever exceeds that period's configured limit. -/
def RateInv (s : ServerState) : Prop :=
  ∀ p b, s.rateTable p b ≤ limitOf p

lemma postTweet_rateInv (dryRun : Bool) (now : Nat) (out : DispatchOutcome)
    (s : ServerState) (t : Tweet) (h : RateInv s) :
    RateInv (postTweet dryRun now out s t).2 := by
  intro p b
  have hpb := h p b
  simp only [postTweet]
  repeat' split
  all_goals simp only [addHash, bumpAllBuckets, consumeAll]
  all_goals try exact hpb
  all_goals
    cases p <;>
      simp_all [updateRateLimitUsage, limitOf, TWEET_DAILY_LIMIT,
        TWEET_HOURLY_LIMIT, TWEET_MINUTE_LIMIT] <;>
      split_ifs <;> simp_all <;> omega

lemma processDueTweet_rateTable (dryRun : Bool) (now : Nat)
    (out : DispatchOutcome) (s : ServerState) (t : Tweet) :
    (processDueTweet dryRun now out s t).state.rateTable
      = (postTweet dryRun now out s t).2.rateTable := by
  simp only [processDueTweet]
  repeat' split
  all_goals simp [applyUpdate, StepResult.state]

lemma processDueTweet_hashes (dryRun : Bool) (now : Nat)
    (out : DispatchOutcome) (s : ServerState) (t : Tweet) :
    (processDueTweet dryRun now out s t).state.postedHashes
      = (postTweet dryRun now out s t).2.postedHashes := by
  simp only [processDueTweet]
  repeat' split
  all_goals simp [applyUpdate, StepResult.state]

lemma processDueTweet_disp_some (dryRun : Bool) (now : Nat)
    (out : DispatchOutcome) (s : ServerState) (t : Tweet) (c : String)
    (h : (processDueTweet dryRun now out s t).disp = some c) :
    c ∉ s.postedHashes ∧
      (processDueTweet dryRun now out s t).state.postedHashes =
        c :: s.postedHashes := by
  have hsucc :
      (postTweet dryRun now out s t).1.success = true →
        t.text ∉ s.postedHashes ∧
          (postTweet dryRun now out s t).2.postedHashes =
            t.text :: s.postedHashes :=
    postTweet_success_hash dryRun now out s t
  revert h
  simp only [processDueTweet]
  repeat' split
  all_goals
    simp_all [applyUpdate, StepResult.state, StepResult.disp]
  all_goals
    intro hx hdata hceq
    subst hceq
    simp_all

lemma filter_id_applyUpdate (l : List Tweet) (id0 a : String)
    (f : Tweet → Tweet) (hf : ∀ u, (f u).id = u.id) (hne : id0 ≠ a) :
    ((l.map fun u => if u.id = id0 then f u else u).filter
        (fun u => u.id == a))
      = l.filter (fun u => u.id == a) := by
  induction l with
  | nil => rfl
  | cons x xs ih =>
    simp only [List.map_cons, List.filter_cons]
    by_cases hx : x.id = id0
    · simp [hx, hf x, hne, ih, Ne.symm hne]
    · simp [hx, ih]

lemma map_id_applyUpdate (l : List Tweet) (id0 : String)
    (f : Tweet → Tweet) (hf : ∀ u, (f u).id = u.id) :
    ((l.map fun u => if u.id = id0 then f u else u).map Tweet.id)
      = l.map Tweet.id := by
  induction l with
  | nil => rfl
  | cons x xs ih =>
    by_cases hx : x.id = id0 <;> simp [hx, hf x, ih]

lemma processDueTweet_filter (dryRun : Bool) (now : Nat)
    (out : DispatchOutcome) (s : ServerState) (t : Tweet) (a : String)
    (hne : t.id ≠ a) :
    ((processDueTweet dryRun now out s t).state.tweets.filter
        (fun u => u.id == a))
      = s.tweets.filter (fun u => u.id == a) := by
  have hb := postTweet_tweets dryRun now out s t
  simp only [processDueTweet]
  repeat' split
  all_goals
    simp only [applyUpdate, StepResult.state, hb]
  all_goals
    exact filter_id_applyUpdate s.tweets t.id a _ (fun u => rfl) hne

lemma processDueTweet_ids (dryRun : Bool) (now : Nat)
    (out : DispatchOutcome) (s : ServerState) (t : Tweet) :
    ((processDueTweet dryRun now out s t).state.tweets.map Tweet.id)
      = s.tweets.map Tweet.id := by
  have hb := postTweet_tweets dryRun now out s t
  simp only [processDueTweet]
  repeat' split
  all_goals
    simp only [applyUpdate, StepResult.state, hb]
  all_goals
    exact map_id_applyUpdate s.tweets t.id _ (fun u => rfl)

lemma processDueTweet_hash_mono (dryRun : Bool) (now : Nat)
    (out : DispatchOutcome) (s : ServerState) (t : Tweet) (x : String)
    (hx : x ∈ s.postedHashes) :
    x ∈ (processDueTweet dryRun now out s t).state.postedHashes := by
  rw [processDueTweet_hashes]
  exact postTweet_hash_mono dryRun now out s t x hx

/-- Invariant tying the dispatch log to the idempotency set: the contents
dispatched so far are pairwise distinct and all fingerprinted in
`postedHashes`. -/
def DispInv (s : ServerState) (ds : List String) : Prop :=
  ds.Nodup ∧ ∀ c ∈ ds, c ∈ s.postedHashes

lemma processDueTweet_dispInv (dryRun : Bool) (now : Nat)
    (out : DispatchOutcome) (s : ServerState) (t : Tweet)
    (ds : List String) (h : DispInv s ds) :
    DispInv (processDueTweet dryRun now out s t).state
      (ds ++ (processDueTweet dryRun now out s t).disp.toList) := by
  obtain ⟨hnd, hmem⟩ := h
  cases hd : (processDueTweet dryRun now out s t).disp with
  | none =>
      simp only [hd, Option.toList_none, List.append_nil]
      exact ⟨hnd, fun c hc =>
        processDueTweet_hash_mono dryRun now out s t c (hmem c hc)⟩
  | some c =>
      obtain ⟨hcnot, hceq⟩ := processDueTweet_disp_some dryRun now out s t c hd
      simp only [hd, Option.toList_some]
      constructor
      · refine List.Nodup.append hnd (List.nodup_singleton c) ?_
        intro a ha hac
        rw [List.mem_singleton] at hac
        subst hac
        exact hcnot (hmem a ha)
      · intro x hx
        rw [hceq]
        rcases List.mem_append.mp hx with h1 | h2
        · exact List.mem_cons_of_mem _ (hmem x h1)
        · rw [List.mem_singleton] at h2
          subst h2
          exact List.mem_cons_self _ _

lemma processDue_dispInv (dryRun : Bool) (now : Nat) :
    ∀ (ts : List Tweet) (outs : List DispatchOutcome) (s : ServerState)
      (ds : List String), DispInv s ds →
      DispInv (processDue dryRun now ts outs s).1
        (ds ++ (processDue dryRun now ts outs s).2)
  | [], _, s, ds, h => by simpa [processDue] using h
  | t :: ts, outs, s, ds, h => by
    have hinv := processDueTweet_dispInv dryRun now
      (outs.headD (DispatchOutcome.err noOutcomeMsg)) s t ds h
    simp only [processDue]
    cases hstep : processDueTweet dryRun now
        (outs.headD (DispatchOutcome.err noOutcomeMsg)) s t with
    | ok s1 d =>
        rw [hstep] at hinv
        simp only [StepResult.state, StepResult.disp] at hinv
        have hrec := processDue_dispInv dryRun now ts outs.tail s1 (ds ++ d.toList) hinv
        simpa [List.append_assoc] using hrec
    | crash s1 =>
        rw [hstep] at hinv
        simpa [StepResult.state, StepResult.disp] using hinv

lemma runTrace_dispInv (dryRun : Bool) :
    ∀ (trace : List (Nat × List DispatchOutcome)) (s : ServerState)
      (ds : List String), DispInv s ds →
      DispInv (runTrace dryRun trace s).1
        (ds ++ (runTrace dryRun trace s).2)
  | [], s, ds, h => by simpa [runTrace] using h
  | (now, outs) :: rest, s, ds, h => by
    have h1 := processDue_dispInv dryRun now
      (s.tweets.filter (isDueTweet now)) outs s ds h
    have h2 := runTrace_dispInv dryRun rest
      (processDue dryRun now (s.tweets.filter (isDueTweet now)) outs s).1
      (ds ++ (processDue dryRun now (s.tweets.filter (isDueTweet now)) outs s).2)
      h1
    simpa [runTrace, runSchedulerTick, List.append_assoc] using h2

lemma processDueTweet_rateInv (dryRun : Bool) (now : Nat)
    (out : DispatchOutcome) (s : ServerState) (t : Tweet)
    (h : RateInv s) :
    RateInv (processDueTweet dryRun now out s t).state := by
  intro p b
  rw [processDueTweet_rateTable]
  exact postTweet_rateInv dryRun now out s t h p b

lemma processDue_rateInv (dryRun : Bool) (now : Nat) :
    ∀ (ts : List Tweet) (outs : List DispatchOutcome) (s : ServerState),
      RateInv s → RateInv (processDue dryRun now ts outs s).1
  | [], _, s, h => by simpa [processDue] using h
  | t :: ts, outs, s, h => by
    have hinv := processDueTweet_rateInv dryRun now
      (outs.headD (DispatchOutcome.err noOutcomeMsg)) s t h
    simp only [processDue]
    cases hstep : processDueTweet dryRun now
        (outs.headD (DispatchOutcome.err noOutcomeMsg)) s t with
    | ok s1 d =>
        rw [hstep] at hinv
        simp only [StepResult.state] at hinv
        exact processDue_rateInv dryRun now ts outs.tail s1 hinv
    | crash s1 =>
        rw [hstep] at hinv
        simpa [StepResult.state] using hinv

lemma runTrace_rateInv (dryRun : Bool) :
    ∀ (trace : List (Nat × List DispatchOutcome)) (s : ServerState),
      RateInv s → RateInv (runTrace dryRun trace s).1
  | [], s, h => by simpa [runTrace] using h
  | (now, outs) :: rest, s, h => by
    have h1 := processDue_rateInv dryRun now
      (s.tweets.filter (isDueTweet now)) outs s h
    simpa [runTrace, runSchedulerTick] using
      runTrace_rateInv dryRun rest
        (processDue dryRun now (s.tweets.filter (isDueTweet now)) outs s).1 h1

lemma processDue_filter (dryRun : Bool) (now : Nat) :
    ∀ (ts : List Tweet) (outs : List DispatchOutcome) (s : ServerState)
      (a : String), (∀ d ∈ ts, d.id ≠ a) →
      ((processDue dryRun now ts outs s).1.tweets.filter (fun u => u.id == a))
        = s.tweets.filter (fun u => u.id == a)
  | [], _, s, a, _ => rfl
  | t :: ts, outs, s, a, h => by
    have hne : t.id ≠ a := h t (List.mem_cons_self t ts)
    have hsf := processDueTweet_filter dryRun now
      (outs.headD (DispatchOutcome.err noOutcomeMsg)) s t a hne
    simp only [processDue]
    cases hstep : processDueTweet dryRun now
        (outs.headD (DispatchOutcome.err noOutcomeMsg)) s t with
    | ok s1 d =>
        rw [hstep] at hsf
        simp only [StepResult.state] at hsf
        have hrec := processDue_filter dryRun now ts outs.tail s1 a
          (fun d hd => h d (List.mem_cons_of_mem _ hd))
        simpa using hrec.trans hsf
    | crash s1 =>
        rw [hstep] at hsf
        simpa [StepResult.state] using hsf

lemma processDue_ids (dryRun : Bool) (now : Nat) :
    ∀ (ts : List Tweet) (outs : List DispatchOutcome) (s : ServerState),
      ((processDue dryRun now ts outs s).1.tweets.map Tweet.id)
        = s.tweets.map Tweet.id
  | [], _, s => rfl
  | t :: ts, outs, s => by
    have hsi := processDueTweet_ids dryRun now
      (outs.headD (DispatchOutcome.err noOutcomeMsg)) s t
    simp only [processDue]
    cases hstep : processDueTweet dryRun now
        (outs.headD (DispatchOutcome.err noOutcomeMsg)) s t with
    | ok s1 d =>
        rw [hstep] at hsi
        simp only [StepResult.state] at hsi
        have hrec := processDue_ids dryRun now ts outs.tail s1
        simpa using hrec.trans hsi
    | crash s1 =>
        rw [hstep] at hsi
        simpa [StepResult.state] using hsi

lemma runSchedulerTick_ids (dryRun : Bool) (now : Nat)
    (outs : List DispatchOutcome) (s : ServerState) :
    ((runSchedulerTick dryRun now outs s).1.tweets.map Tweet.id)
      = s.tweets.map Tweet.id := by
  simpa [runSchedulerTick] using
    processDue_ids dryRun now (s.tweets.filter (isDueTweet now)) outs s

lemma runSchedulerTick_terminal_filter (dryRun : Bool) (now : Nat)
    (outs : List DispatchOutcome) (s : ServerState) (t : Tweet)
    (hnd : (s.tweets.map Tweet.id).Nodup) (ht : t ∈ s.tweets)
    (hterm : t.status ≠ Status.pending) :
    ((runSchedulerTick dryRun now outs s).1.tweets.filter
        (fun u => u.id == t.id))
      = s.tweets.filter (fun u => u.id == t.id) := by
  have hids : ∀ d ∈ s.tweets.filter (isDueTweet now), d.id ≠ t.id := by
    intro d hd heq
    have hd' := List.mem_filter.mp hd
    have hdp : d.status = Status.pending := by
      have hdue := hd'.2
      simp only [isDueTweet, Bool.and_eq_true, decide_eq_true_eq] at hdue
      exact hdue.1
    have hdt : d = t := List.inj_on_of_nodup_map hnd hd'.1 ht heq
    exact hterm (hdt ▸ hdp)
  simpa [runSchedulerTick] using
    processDue_filter dryRun now (s.tweets.filter (isDueTweet now)) outs s
      t.id hids

lemma runSchedulerTick_terminal_mem (dryRun : Bool) (now : Nat)
    (outs : List DispatchOutcome) (s : ServerState) (t : Tweet)
    (hnd : (s.tweets.map Tweet.id).Nodup) (ht : t ∈ s.tweets)
    (hterm : t.status ≠ Status.pending) :
    t ∈ (runSchedulerTick dryRun now outs s).1.tweets := by
  have hf := runSchedulerTick_terminal_filter dryRun now outs s t hnd ht hterm
  have hmem : t ∈ (runSchedulerTick dryRun now outs s).1.tweets.filter
      (fun u => u.id == t.id) := by
    rw [hf]
    exact List.mem_filter.mpr ⟨ht, by simp⟩
  exact (List.mem_filter.mp hmem).1

lemma runTrace_terminal_filter (dryRun : Bool) :
    ∀ (trace : List (Nat × List DispatchOutcome)) (s : ServerState)
      (t : Tweet), (s.tweets.map Tweet.id).Nodup → t ∈ s.tweets →
      t.status ≠ Status.pending →
      ((runTrace dryRun trace s).1.tweets.filter (fun u => u.id == t.id))
        = s.tweets.filter (fun u => u.id == t.id)
  | [], s, t, _, _, _ => rfl
  | (now, outs) :: rest, s, t, hnd, ht, hterm => by
    have h1 := runSchedulerTick_terminal_filter dryRun now outs s t hnd ht hterm
    have hnd' : (((runSchedulerTick dryRun now outs s).1).tweets.map
        Tweet.id).Nodup := by
      rw [runSchedulerTick_ids]
      exact hnd
    have ht' := runSchedulerTick_terminal_mem dryRun now outs s t hnd ht hterm
    have hrec := runTrace_terminal_filter dryRun rest
      (runSchedulerTick dryRun now outs s).1 t hnd' ht' hterm
    simpa [runTrace] using hrec.trans h1

/-! ### Clean-start runs of successful posts (for the rate snapshot) -/

/-- An arbitrary external id returned by the publish call. -/
def dispatchedId : String := "1965143218296693155"

/-- A fresh pending item carrying the given content. -/
def mkTweet (c : String) : Tweet :=
  { id := c, text := c, runAt := 0, status := Status.pending, attempts := 0 }

/-- The process state after `i` successful posts in the current buckets,
starting from durable usage `d0`/`h0`/`m0` at startup: the limiters were
sized to `limit - durable usage` by the startup reconciliation, each
success has consumed one memory point and incremented each durable
current-bucket counter once, and the posted contents are `seen`. -/
def runState (now d0 h0 m0 i : Nat) (seen : List String) : ServerState :=
  { tweets := []
    rateTable := fun p b =>
      if p = Period.daily ∧ b = dayBucket now then d0 + i
      else if p = Period.hourly ∧ b = hourBucket now then h0 + i
      else if p = Period.minute ∧ b = minuteBucket now then m0 + i
      else 0
    postedHashes := seen
    dailyLimiter := ⟨TWEET_DAILY_LIMIT - d0, i, 0⟩
    hourlyLimiter := ⟨TWEET_HOURLY_LIMIT - h0, i, 0⟩
    minuteLimiter := ⟨TWEET_MINUTE_LIMIT - m0, i, 0⟩ }

/-- A run of `postTweet` calls that all dispatch successfully, one per
content in the list, at a fixed instant. -/
def successRun (now : Nat) : List String → ServerState → ServerState
  | [], s => s
  | c :: rest, s =>
      successRun now rest
        (postTweet false now (DispatchOutcome.ok dispatchedId) s (mkTweet c)).2

lemma successRun_step (now d0 h0 m0 i : Nat) (seen : List String) (c : String)
    (hc : c ∉ seen) (hd : d0 + i < TWEET_DAILY_LIMIT)
    (hh : h0 + i < TWEET_HOURLY_LIMIT) (hm : m0 + i < TWEET_MINUTE_LIMIT) :
    (postTweet false now (DispatchOutcome.ok dispatchedId)
        (runState now d0 h0 m0 i seen) (mkTweet c)).2
      = runState now d0 h0 m0 (i + 1) (c :: seen) := by
  have hc1 : ((runState now d0 h0 m0 i seen).postedHashes.contains
      (generateContentHash (mkTweet c).text)) = false := by
    simp [runState, mkTweet, generateContentHash, hc]
  have hr1 : (runState now d0 h0 m0 i seen).rateTable .daily (dayBucket now)
      = d0 + i := by simp [runState]
  have hr2 : (runState now d0 h0 m0 i seen).rateTable .hourly (hourBucket now)
      = h0 + i := by simp [runState]
  have hr3 : (runState now d0 h0 m0 i seen).rateTable .minute (minuteBucket now)
      = m0 + i := by simp [runState]
  have hn1 : ¬ (TWEET_DAILY_LIMIT ≤ d0 + i) := by omega
  have hn2 : ¬ (TWEET_HOURLY_LIMIT ≤ h0 + i) := by omega
  have hn3 : ¬ (TWEET_MINUTE_LIMIT ≤ m0 + i) := by omega
  have hcd : i < TWEET_DAILY_LIMIT - d0 := by omega
  have hch : i < TWEET_HOURLY_LIMIT - h0 := by omega
  have hcm : i < TWEET_MINUTE_LIMIT - m0 := by omega
  have hb1 : (⟨TWEET_DAILY_LIMIT - d0, i, 0⟩ : MemLimiter).canConsume
      = true := by
    simp [MemLimiter.canConsume]
    omega
  have hb2 : (⟨TWEET_HOURLY_LIMIT - h0, i, 0⟩ : MemLimiter).canConsume
      = true := by
    simp [MemLimiter.canConsume]
    omega
  have hb3 : (⟨TWEET_MINUTE_LIMIT - m0, i, 0⟩ : MemLimiter).canConsume
      = true := by
    simp [MemLimiter.canConsume]
    omega
  simp only [postTweet]
  simp [hc, hc1, hr1, hr2, hr3, hn1, hn2, hn3, hb1, hb2, hb3, addHash,
    bumpAllBuckets, consumeAll, runState, MemLimiter.consume, mkTweet,
    generateContentHash, hcd, hch, hcm]
  funext p b
  cases p <;> simp [updateRateLimitUsage] <;> split_ifs <;> simp_all <;> omega

lemma successRun_eq (now d0 h0 m0 : Nat) :
    ∀ (cs : List String) (i : Nat) (seen : List String), cs.Nodup →
      (∀ c ∈ cs, c ∉ seen) →
      d0 + i + cs.length ≤ TWEET_DAILY_LIMIT →
      h0 + i + cs.length ≤ TWEET_HOURLY_LIMIT →
      m0 + i + cs.length ≤ TWEET_MINUTE_LIMIT →
      successRun now cs (runState now d0 h0 m0 i seen)
        = runState now d0 h0 m0 (i + cs.length) (cs.reverse ++ seen)
  | [], i, seen, _, _, _, _, _ => by simp [successRun]
  | c :: cs, i, seen, hnd, hfresh, hd, hh, hm => by
    have hlen : (c :: cs).length = cs.length + 1 := rfl
    have hstep := successRun_step now d0 h0 m0 i seen c
      (hfresh c (List.mem_cons_self c cs))
      (by rw [hlen] at hd; omega) (by rw [hlen] at hh; omega)
      (by rw [hlen] at hm; omega)
    have hfresh' : ∀ x ∈ cs, x ∉ c :: seen := by
      intro x hx
      rw [List.mem_cons]
      rintro (rfl | hx')
      · exact (List.nodup_cons.mp hnd).1 hx
      · exact hfresh x (List.mem_cons_of_mem c hx) hx'
    have hrec := successRun_eq now d0 h0 m0 cs (i + 1) (c :: seen)
      (List.nodup_cons.mp hnd).2 hfresh'
      (by rw [hlen] at hd; omega) (by rw [hlen] at hh; omega)
      (by rw [hlen] at hm; omega)
    have harith : i + 1 + cs.length = i + (cs.length + 1) := by omega
    simp only [successRun, hstep]
    rw [hrec, harith]
    simp [List.reverse_cons, List.append_assoc]

/-! ### Concrete data used by counterexamples and witnesses -/

def helloText : String := "hello world"

def otherText : String := "a different tweet"

def boomMsg : String := "boom"

def idA : String := "a1"

def idB : String := "b2"

/-! ### Claims -/

/-- C1: within a single process lifetime, for every content text, at most
one per-item scheduler step marks an item posted with a non-null external
id (tweetId): the idempotency guard's check (on entry of postTweet) and
mark (on dispatch success) let no two dispatch attempts for the same
fingerprint both pass, and every later item with the same fingerprint is
resolved as a duplicate without an external id.  The dispatch log of
`runTrace` records the content of exactly the steps that assigned a
non-null tweetId; its per-content count never exceeds one, over any trace
of ticks from any starting state. -/
theorem no_duplicate_dispatch (dryRun : Bool)
    (trace : List (Nat × List DispatchOutcome)) (s0 : ServerState)
    (c : String) :
    ((runTrace dryRun trace s0).2).count c ≤ 1 := by
  have h := runTrace_dispInv dryRun trace s0 [] ⟨List.nodup_nil, by simp⟩
  have hnd : ((runTrace dryRun trace s0).2).Nodup := by simpa using h.1
  exact List.nodup_iff_count_le_one.mp hnd c

/-- C2: for every period and bucket, the durable `used` counter of the
`rate_limits` table never exceeds the configured limit for that period
(150 per day, 25 per hour, 3 per minute): every dispatch attempt checks
the durable usage of all three current buckets against the limits before
incrementing any of them, and items are processed strictly sequentially,
so the bound is preserved by every trace of scheduler ticks. -/
theorem rate_counters_within_limits (dryRun : Bool)
    (trace : List (Nat × List DispatchOutcome)) (s0 : ServerState)
    (h0 : RateInv s0) :
    RateInv (runTrace dryRun trace s0).1 :=
  runTrace_rateInv dryRun trace s0 h0

def c2Tweet : Tweet :=
  { id := idA, text := helloText, runAt := 0, status := Status.pending,
    attempts := 0 }

def c2State : ServerState :=
  { tweets := [c2Tweet]
    rateTable := fun _ _ => 0
    postedHashes := []
    dailyLimiter := ⟨TWEET_DAILY_LIMIT, 0, 0⟩
    hourlyLimiter := ⟨TWEET_HOURLY_LIMIT, 0, 0⟩
    minuteLimiter := ⟨TWEET_MINUTE_LIMIT, 0, 0⟩ }

def c2Trace : List (Nat × List DispatchOutcome) :=
  [(60000, [DispatchOutcome.ok dispatchedId])]

theorem rate_counters_within_limits_witness :
    RateInv (runTrace false c2Trace c2State).1 :=
  rate_counters_within_limits false c2Trace c2State
    (fun p b => by cases p <;> simp [c2State, limitOf])

lemma runTrace_c2_dispatch_log :
    (runTrace false c2Trace c2State).2 = [helloText] := by
  decide

def c2Posted : Tweet :=
  { c2Tweet with
      attempts := 1
      status := Status.posted
      postedAt := some 60000
      tweetId := some dispatchedId }

lemma runTrace_c2_posts :
    (runTrace false c2Trace c2State).1.tweets = [c2Posted] := by
  decide

def c3Tweet : Tweet :=
  { id := idA, text := helloText, runAt := 400000, status := Status.pending,
    attempts := 0, nextRetryAt := some 900000 }

/-- C3: the claim is REFUTED by the code (and the nextRetryAt deferral the
code itself persists and logs is the evident intent): the due filter of
`runScheduler` selects any pending item with runAt <= now and never reads
nextRetryAt, so an item whose nextRetryAt (900000) is still in the future
at now = 500000 is nevertheless in the due subset. -/
theorem due_filter_ignores_retry_deferral :
    c3Tweet.nextRetryAt = some 900000 ∧ 500000 < 900000 ∧
      isDueTweet 500000 c3Tweet = true ∧
      [c3Tweet].filter (isDueTweet 500000) = [c3Tweet] := by
  refine ⟨rfl, by omega, by decide, by decide⟩

def c4Tweet : Tweet :=
  { id := idA, text := helloText, runAt := 0, status := Status.pending,
    attempts := 0 }

def c4State : ServerState :=
  { tweets := [c4Tweet]
    rateTable := fun _ _ => 0
    postedHashes := []
    dailyLimiter := ⟨TWEET_DAILY_LIMIT, 0, 0⟩
    hourlyLimiter := ⟨TWEET_HOURLY_LIMIT, 0, 0⟩
    minuteLimiter := ⟨TWEET_MINUTE_LIMIT, 0, 0⟩ }

/-- C4 counterexample: a dispatch attempt that passes the rate check and
then fails at the external publish call (the external call throws) leaves
all three durable current-bucket counters permanently incremented, so the
claim "the durable counters are not permanently incremented for that
attempt" is false on the code. -/
theorem budget_consumed_on_failed_dispatch_cex :
    ((postTweet false 0 (DispatchOutcome.err boomMsg) c4State c4Tweet).1.success
        = false) ∧
    ((postTweet false 0 (DispatchOutcome.err boomMsg) c4State c4Tweet).2.rateTable
        Period.daily (dayBucket 0) = 1) ∧
    ((postTweet false 0 (DispatchOutcome.err boomMsg) c4State c4Tweet).2.rateTable
        Period.hourly (hourBucket 0) = 1) ∧
    ((postTweet false 0 (DispatchOutcome.err boomMsg) c4State c4Tweet).2.rateTable
        Period.minute (minuteBucket 0) = 1) := by
  refine ⟨by decide, by decide, by decide, by decide⟩

/-- C4 (amended): the durable counters for the current minute, hour and
day buckets are incremented as soon as the dispatch attempt passes the
idempotency and rate checks, BEFORE the external call: whatever the
dispatch outcome (success or failure, DRY_RUN or not), every current
bucket's counter ends exactly one above its pre-attempt value. -/
theorem budget_incremented_before_dispatch (dryRun : Bool) (now : Nat)
    (s : ServerState) (t : Tweet)
    (hhash : t.text ∉ s.postedHashes)
    (hd : s.rateTable .daily (dayBucket now) < TWEET_DAILY_LIMIT)
    (hh : s.rateTable .hourly (hourBucket now) < TWEET_HOURLY_LIMIT)
    (hm : s.rateTable .minute (minuteBucket now) < TWEET_MINUTE_LIMIT)
    (hld : s.dailyLimiter.canConsume = true)
    (hlh : s.hourlyLimiter.canConsume = true)
    (hlm : s.minuteLimiter.canConsume = true) :
    ∀ (out : DispatchOutcome) (p : Period),
      (postTweet dryRun now out s t).2.rateTable p (bucketOf p now)
        = s.rateTable p (bucketOf p now) + 1 := by
  intro out p
  have hn1 : ¬ (TWEET_DAILY_LIMIT ≤ s.rateTable .daily (dayBucket now)) := by
    omega
  have hn2 : ¬ (TWEET_HOURLY_LIMIT ≤ s.rateTable .hourly (hourBucket now)) := by
    omega
  have hn3 : ¬ (TWEET_MINUTE_LIMIT ≤ s.rateTable .minute (minuteBucket now)) := by
    omega
  simp only [postTweet]
  simp [hhash, generateContentHash, hn1, hn2, hn3, hld, hlh, hlm, addHash,
    bumpAllBuckets, consumeAll]
  cases dryRun <;> cases out <;> cases p <;>
    simp [updateRateLimitUsage, bucketOf]

theorem budget_incremented_before_dispatch_witness :
    (postTweet false 0 (DispatchOutcome.err boomMsg) c4State c4Tweet).2.rateTable
        Period.minute (bucketOf Period.minute 0)
      = c4State.rateTable Period.minute (bucketOf Period.minute 0) + 1 :=
  budget_incremented_before_dispatch false 0 c4State c4Tweet
    (by decide) (by decide) (by decide) (by decide)
    (by decide) (by decide) (by decide)
    (DispatchOutcome.err boomMsg) Period.minute

def c5Tweet : Tweet :=
  { id := idA, text := helloText, runAt := 0, status := Status.pending,
    attempts := 0 }

def c5State : ServerState :=
  { tweets := [c5Tweet]
    rateTable := fun _ _ => 0
    postedHashes := []
    dailyLimiter := ⟨TWEET_DAILY_LIMIT, 0, 0⟩
    hourlyLimiter := ⟨TWEET_HOURLY_LIMIT, 0, 0⟩
    minuteLimiter := ⟨0, 0, 60000⟩ }

/-- C5: for every due item denied by the rate-budget check, the item's
attempts counter is not incremented and its status remains pending after
the tick: the stored rows are unchanged by the denied step.  The scheduler
does build updates = (attempts + 1, nextRetryAt) in memory, but that
UPDATE names the nonexistent nextRetryAt column and fails wholesale, so
nothing is persisted (denial with a hint); a durable-check denial carries
no hint and throws before updateTweet runs (crash branch).  Either way no
stored field of any item — in particular the denied item's attempts and
status — changes. -/
theorem rate_denial_not_an_attempt (dryRun : Bool) (now : Nat)
    (out : DispatchOutcome) (s : ServerState) (t : Tweet)
    (hrl : (postTweet dryRun now out s t).1.rateLimit = true) :
    (processDueTweet dryRun now out s t).state.tweets = s.tweets := by
  have hfl := postTweet_rateLimit_flags dryRun now out s t hrl
  have hb := postTweet_tweets dryRun now out s t
  simp only [processDueTweet, hfl.1, hfl.2, hrl]
  cases hrt : (postTweet dryRun now out s t).1.resetTime <;>
    simpa [StepResult.state] using hb

theorem rate_denial_not_an_attempt_witness :
    (processDueTweet false 0 (DispatchOutcome.err boomMsg) c5State
        c5Tweet).state.tweets
      = c5State.tweets :=
  rate_denial_not_an_attempt false 0 (DispatchOutcome.err boomMsg) c5State
    c5Tweet (by decide)

def c6Tweet1 : Tweet :=
  { id := idA, text := helloText, runAt := 0, status := Status.pending,
    attempts := 0 }

def c6Tweet2 : Tweet :=
  { id := idB, text := otherText, runAt := 0, status := Status.pending,
    attempts := 0 }

def c6State : ServerState :=
  { tweets := [c6Tweet1, c6Tweet2]
    rateTable := fun p _ => if p = Period.minute then 3 else 0
    postedHashes := []
    dailyLimiter := ⟨TWEET_DAILY_LIMIT, 0, 0⟩
    hourlyLimiter := ⟨TWEET_HOURLY_LIMIT, 0, 0⟩
    minuteLimiter := ⟨TWEET_MINUTE_LIMIT, 0, 0⟩ }

/-- C6: the claim is REFUTED by the code, whose own logging promises the
postponement: a durable-check rate denial returns no resetTime, so the
scheduler evaluates new Date(now + undefined).toISOString(), and the
resulting RangeError escapes the per-item loop into the tick's catch.  In
this run the minute bucket is exhausted (used = 3): the first due item is
left unchanged (no nextRetryAt is set) and the second due item of the
same tick is never processed. -/
theorem rate_denial_without_hint_aborts_tick :
    ((runSchedulerTick false 0 [] c6State).1.tweets = [c6Tweet1, c6Tweet2]) ∧
    ((runSchedulerTick false 0 [] c6State).2 = []) := by
  constructor <;> rfl

/-- C7: the computed retry backoff delay of `src/app.js` equals
min(baseDelay * 2^k, 300000) with baseDelay = 1000 ms for rate-limit
(429) signals and 5000 ms for retryable server-error signals; the delay
is non-decreasing in the attempt number and never exceeds 300000 ms. -/
theorem backoff_delay_formula (isRL : Bool) (k : Nat) :
    (retryDelay isRL k
        = min ((if isRL then 1000 else 5000) * 2 ^ k) 300000) ∧
      retryDelay isRL k ≤ retryDelay isRL (k + 1) ∧
      retryDelay isRL k ≤ 300000 := by
  refine ⟨by cases isRL <;> rfl, ?_, ?_⟩
  · cases isRL <;>
      · simp only [retryDelay, calculateBackoffDelay,
          RATE_LIMIT_BACKOFF_BASE, if_true, if_false, Bool.false_eq_true,
          ite_false, ite_true]
        exact min_le_min
          (Nat.mul_le_mul_left _
            (Nat.pow_le_pow_right (by norm_num) (Nat.le_succ k))) le_rfl
  · cases isRL <;>
      · simp only [retryDelay, calculateBackoffDelay,
          RATE_LIMIT_BACKOFF_BASE, Bool.false_eq_true, ite_false, ite_true]
        exact min_le_right _ _

/-- C8: once an item's status is posted or failed, the scheduler never
selects it into the due subset again, so across any sequence of ticks
every stored row carrying that item's id is unchanged (an explicit
external edit is not part of a scheduler trace). -/
theorem terminal_items_untouched (dryRun : Bool)
    (trace : List (Nat × List DispatchOutcome)) (s : ServerState)
    (t : Tweet) (hnd : (s.tweets.map Tweet.id).Nodup) (ht : t ∈ s.tweets)
    (hterm : t.status ≠ Status.pending) :
    ((runTrace dryRun trace s).1.tweets.filter (fun u => u.id == t.id))
      = s.tweets.filter (fun u => u.id == t.id) :=
  runTrace_terminal_filter dryRun trace s t hnd ht hterm

def c8Posted : Tweet :=
  { id := idA, text := helloText, runAt := 0, status := Status.posted,
    attempts := 1, postedAt := some 0, tweetId := some dispatchedId }

def c8Pending : Tweet :=
  { id := idB, text := otherText, runAt := 0, status := Status.pending,
    attempts := 0 }

def c8State : ServerState :=
  { tweets := [c8Posted, c8Pending]
    rateTable := fun _ _ => 0
    postedHashes := []
    dailyLimiter := ⟨TWEET_DAILY_LIMIT, 0, 0⟩
    hourlyLimiter := ⟨TWEET_HOURLY_LIMIT, 0, 0⟩
    minuteLimiter := ⟨TWEET_MINUTE_LIMIT, 0, 0⟩ }

def c8Trace : List (Nat × List DispatchOutcome) :=
  [(60000, [DispatchOutcome.ok dispatchedId])]

theorem terminal_items_untouched_witness :
    ((runTrace false c8Trace c8State).1.tweets.filter
        (fun u => u.id == c8Posted.id))
      = c8State.tweets.filter (fun u => u.id == c8Posted.id) :=
  terminal_items_untouched false c8Trace c8State c8Posted
    (by decide) (by decide) (by decide)

def c9Tweet : Tweet :=
  { id := idA, text := helloText, runAt := 100, status := Status.failed,
    attempts := 3, nextRetryAt := some 5, error := some boomMsg,
    failedAt := some 100 }

/-- C9 counterexample: the edit handler leaves the stored error and
nextRetryAt untouched when dueAt is edited (the claim says both are
cleared), and an edit that changes only the content resets nothing (the
claim says it resets attempts and forces status back to pending). -/
theorem edit_reset_cex :
    ((putTweetUpdate none (some 999) c9Tweet).error = some boomMsg) ∧
    ((putTweetUpdate none (some 999) c9Tweet).nextRetryAt = some 5) ∧
    ((putTweetUpdate (some otherText) none c9Tweet).attempts = 3) ∧
    ((putTweetUpdate (some otherText) none c9Tweet).status = Status.failed) :=
  ⟨rfl, rfl, rfl, rfl⟩

/-- C9 (amended): an edit that supplies a parseable new scheduled time
resets attempts to 0, forces status back to pending and stores the new
runAt, but leaves the stored error, nextRetryAt and tweetId untouched; an
edit that supplies only new content stores the trimmed text and resets
nothing. -/
theorem edit_reset_semantics (txt : Option String) (inst : Nat) (t : Tweet) :
    ((putTweetUpdate txt (some inst) t).status = Status.pending) ∧
    ((putTweetUpdate txt (some inst) t).attempts = 0) ∧
    ((putTweetUpdate txt (some inst) t).runAt = inst) ∧
    ((putTweetUpdate txt (some inst) t).error = t.error) ∧
    ((putTweetUpdate txt (some inst) t).nextRetryAt = t.nextRetryAt) ∧
    ((putTweetUpdate txt (some inst) t).tweetId = t.tweetId) ∧
    (∀ s : String, putTweetUpdate (some s) none t
        = { t with text := s.trim }) := by
  cases txt <;> simp [putTweetUpdate]

/-- The state reached by a clean-start run: durable current-bucket usage
d0/h0/m0 at startup, limiters reconciled to limit minus that usage, then
one successful post per content in cs, all at the same instant. -/
def c10Run (now d0 h0 m0 : Nat) (cs : List String) : ServerState :=
  successRun now cs (runState now d0 h0 m0 0 [])

/-- C10: the rate snapshot reports, per period, used = durable usage of the
current bucket + the in-memory limiter's consumed points, and remaining =
max(0, limit - used); since every successful post of the current process
run increments both sources, after k clean-start successful posts the
snapshot's used equals the startup usage plus 2k (each post counted
twice) and the reported remaining underestimates the true remaining
budget, limit - (startup + k), by exactly k. -/
theorem snapshot_double_counts (now d0 h0 m0 : Nat) (cs : List String)
    (hnd : cs.Nodup)
    (hd : d0 + 2 * cs.length ≤ TWEET_DAILY_LIMIT)
    (hh : h0 + 2 * cs.length ≤ TWEET_HOURLY_LIMIT)
    (hm : m0 + 2 * cs.length ≤ TWEET_MINUTE_LIMIT) :
    ((checkRateLimits (c10Run now d0 h0 m0 cs) now).daily.used
        = (c10Run now d0 h0 m0 cs).rateTable .daily (dayBucket now)
          + (c10Run now d0 h0 m0 cs).dailyLimiter.consumed) ∧
    ((checkRateLimits (c10Run now d0 h0 m0 cs) now).hourly.used
        = (c10Run now d0 h0 m0 cs).rateTable .hourly (hourBucket now)
          + (c10Run now d0 h0 m0 cs).hourlyLimiter.consumed) ∧
    ((checkRateLimits (c10Run now d0 h0 m0 cs) now).minute.used
        = (c10Run now d0 h0 m0 cs).rateTable .minute (minuteBucket now)
          + (c10Run now d0 h0 m0 cs).minuteLimiter.consumed) ∧
    ((checkRateLimits (c10Run now d0 h0 m0 cs) now).daily.remaining
        = TWEET_DAILY_LIMIT
          - (checkRateLimits (c10Run now d0 h0 m0 cs) now).daily.used) ∧
    ((checkRateLimits (c10Run now d0 h0 m0 cs) now).hourly.remaining
        = TWEET_HOURLY_LIMIT
          - (checkRateLimits (c10Run now d0 h0 m0 cs) now).hourly.used) ∧
    ((checkRateLimits (c10Run now d0 h0 m0 cs) now).minute.remaining
        = TWEET_MINUTE_LIMIT
          - (checkRateLimits (c10Run now d0 h0 m0 cs) now).minute.used) ∧
    ((checkRateLimits (c10Run now d0 h0 m0 cs) now).daily.used
        = d0 + 2 * cs.length) ∧
    ((checkRateLimits (c10Run now d0 h0 m0 cs) now).hourly.used
        = h0 + 2 * cs.length) ∧
    ((checkRateLimits (c10Run now d0 h0 m0 cs) now).minute.used
        = m0 + 2 * cs.length) ∧
    ((checkRateLimits (c10Run now d0 h0 m0 cs) now).daily.remaining
          + cs.length
        = TWEET_DAILY_LIMIT - (d0 + cs.length)) ∧
    ((checkRateLimits (c10Run now d0 h0 m0 cs) now).hourly.remaining
          + cs.length
        = TWEET_HOURLY_LIMIT - (h0 + cs.length)) ∧
    ((checkRateLimits (c10Run now d0 h0 m0 cs) now).minute.remaining
          + cs.length
        = TWEET_MINUTE_LIMIT - (m0 + cs.length)) := by
  have hrun : c10Run now d0 h0 m0 cs
      = runState now d0 h0 m0 cs.length cs.reverse := by
    have h := successRun_eq now d0 h0 m0 cs 0 [] hnd (by simp)
      (by omega) (by omega) (by omega)
    simpa [c10Run] using h
  rw [hrun]
  simp only [checkRateLimits, runState, TWEET_DAILY_LIMIT,
    TWEET_HOURLY_LIMIT, TWEET_MINUTE_LIMIT] at *
  simp
  omega

theorem snapshot_double_counts_witness :
    ((checkRateLimits (c10Run 0 0 0 0 [helloText]) 0).minute.used
        = 0 + 2 * ([helloText].length)) ∧
    ((checkRateLimits (c10Run 0 0 0 0 [helloText]) 0).minute.remaining
          + [helloText].length
        = TWEET_MINUTE_LIMIT - (0 + [helloText].length)) := by
  have h := snapshot_double_counts 0 0 0 0 [helloText]
    (by decide) (by decide) (by decide) (by decide)
  obtain ⟨h1, h2, h3, h4, h5, h6, h7, h8, h9, h10, h11, h12⟩ := h
  exact ⟨h9, h12⟩

end XPostPlanner
